import Mathlib

/-!
Verification of the infoscreen-system image catalog, broadcast hub,
thumbnail generator and auto-updater.

Shallow embedding of the relevant parts of `server/webserver.js`,
`server/thumbnail-generator.js` and the auto-update script
(`AutoUpdateSystem`).  Machine integers are modelled as `Int`/`Nat`
(JavaScript numbers in this code base are timestamps, array indices and
sizes, all far below 2^53, so no overflow modelling is required),
timestamps as `Nat` milliseconds, the filesystem as explicit state
records, and fallible operations return sum types.
-/

namespace InfoScreen

/-! ## Path helpers (Node's `path.extname` / `path.parse(..).name`) -/

/-- Index (from the front) of the last `'.'` in a character list, if any.
Mirrors the scan `path.extname` performs on a basename. -/
def lastDotIdx (cs : List Char) : Option Nat :=
  match cs with
  | [] => none
  | c :: rest =>
    match lastDotIdx rest with
    | some i => some (i + 1)
    | none => if c = '.' then some 0 else none

/-- Node `path.extname` on a basename: the suffix from the last dot, except that
a dot in position 0 (dotfile) or no dot at all yields `""`. -/
def extname (s : String) : String :=
  match lastDotIdx s.toList with
  | none => ""
  | some 0 => ""
  | some i => String.mk (s.toList.drop i)

/-- ASCII lowercase of a string, as JavaScript's `toLowerCase()` acts on
the file extensions compared here (kernel-reducible, unlike the
byte-position-based library `String.toLower`). -/
def toLowerStr (s : String) : String := String.mk (s.toList.map Char.toLower)

/-- Node `path.parse(file).name`: the basename with `extname` removed. -/
def parseName (s : String) : String :=
  match lastDotIdx s.toList with
  | none => s
  | some 0 => s
  | some i => String.mk (s.toList.take i)

/-! ## Version comparison (`AutoUpdateSystem.isNewerVersion`) -/

/-- JavaScript `Number(component) || 0` as used on the dot-separated
components of a version tag: an optional-sign decimal numeral parses to
its value, and everything falsy or non-numeric (`""` is 0, `NaN` from a
non-numeric string) collapses to 0 through the `|| 0` guard. -/
def jsNumOrZero (s : String) : Int :=
  let cs := s.toList
  match cs with
  | [] => 0
  | '-' :: rest =>
    if rest ≠ [] ∧ rest.all Char.isDigit then
      -(Int.ofNat (String.toNat! (String.mk rest)))
    else 0
  | '+' :: rest =>
    if rest ≠ [] ∧ rest.all Char.isDigit then
      Int.ofNat (String.toNat! (String.mk rest))
    else 0
  | _ =>
    if cs.all Char.isDigit then Int.ofNat (String.toNat! s) else 0

/-- Strip one leading `'v'` (the `replace(/^v/, '')` in the source). -/
def stripLeadingV (s : String) : String :=
  match s.toList with
  | 'v' :: rest => String.mk rest
  | _ => s

/-- The dot-separated numeric components of a version tag after stripping
one leading `'v'`. -/
def versionParts (s : String) : List Int :=
  ((stripLeadingV s).splitOn (".")).map jsNumOrZero

/-- The comparison loop of `isNewerVersion`: walk both component lists in
parallel up to the longer length, treating a missing component as 0;
return `true` on the first strictly greater left component, `false` on
the first strictly smaller one, and `false` when the loop ends. -/
def cmpParts : List Int → List Int → Bool
  | [], [] => false
  | [], c :: cs =>
    if 0 > c then true else if 0 < c then false else cmpParts [] cs
  | l :: ls, [] =>
    if l > 0 then true else if l < 0 then false else cmpParts ls []
  | l :: ls, c :: cs =>
    if l > c then true else if l < c then false else cmpParts ls cs

/-- The source `AutoUpdateSystem.isNewerVersion(latest, current)`. -/
def isNewerVersion (latest current : String) : Bool :=
  cmpParts (versionParts latest) (versionParts current)

/-! ## Data model (`ImageRecord` and the server's image config) -/

/-- One catalog record, as built by the upload handler and by `loadImages`
in `server/webserver.js`.  Fields absent from directory-scan records
(`originalname`, `path`, `size`, `mimetype`) are `Option`s; `uploaded`
and `updated` are millisecond timestamps (the ISO-string formatting of
`new Date().toISOString()` is injective on instants, so the instant
itself is stored). -/
structure ImageRecord where
  id : Int
  filename : String
  originalname : Option String
  storagePath : Option String
  size : Option Nat
  mimetype : Option String
  uploaded : Nat
  updated : Option Nat
  title : String
  description : String
  order : Int
  active : Bool
deriving Repr, DecidableEq

/-- The `config.images` settings the catalog code reads. -/
structure ImagesConfig where
  allowedExtensions : List String
  maxFileSize : Nat
deriving Repr, DecidableEq

/-- The extension check of both multer's `fileFilter` and `loadImages`:
`path.extname(name).toLowerCase()` is a member of the allow list. -/
def allowedExt (cfg : ImagesConfig) (name : String) : Bool :=
  cfg.allowedExtensions.contains (toLowerStr (extname name))

/-- What multer hands the upload handler in `req.file`. -/
structure FileMeta where
  originalname : String
  filename : String
  path : String
  size : Nat
  mimetype : String
deriving Repr, DecidableEq

/-- The JSON responses the catalog routes produce. -/
inductive ApiResponse where
  | okImage (image : ImageRecord)
  | okDeleted
  | apiError (status : Nat) (message : String)
deriving Repr, DecidableEq

/-- HTTP status of a response (success responses are plain 200 `res.json`). -/
def ApiResponse.statusCode : ApiResponse → Nat
  | .okImage _ => 200
  | .okDeleted => 200
  | .apiError s _ => s

/-! ## Catalog API routes (`setupRoutes` in `server/webserver.js`) -/

/-- The record literal built in the `POST /api/upload` handler:
`id = Date.now()`, `order = this.images.length + 1`, title from the
original file name, empty description, active. -/
def mkUploadRecord (images : List ImageRecord) (file : FileMeta) (now : Nat) :
    ImageRecord :=
  { id := (now : Int)
    filename := file.filename
    originalname := some file.originalname
    storagePath := some file.path
    size := some file.size
    mimetype := some file.mimetype
    uploaded := now
    updated := none
    title := parseName file.originalname
    description := ""
    order := (images.length : Int) + 1
    active := true }

/-- The upload pipeline: multer's `fileFilter` rejects a non-allow-listed
extension with `Error('Invalid file type')` and `limits.fileSize`
rejects an oversize body with multer's `LIMIT_FILE_SIZE` ("File too
large"); the app registers no error-handling middleware, so either
rejection surfaces through Express's default error handler as a 500
response and the route handler never runs.  On acceptance the handler
appends the new record and answers 200. -/
def uploadRoute (cfg : ImagesConfig) (images : List ImageRecord)
    (file : FileMeta) (now : Nat) : ApiResponse × List ImageRecord :=
  if ¬ allowedExt cfg file.originalname then
    (.apiError 500 "Invalid file type", images)
  else if file.size > cfg.maxFileSize then
    (.apiError 500 "File too large", images)
  else
    let stored := mkUploadRecord images file now
    (.okImage stored, images ++ [stored])

/-- A `PUT /api/images/:id` body: the spread `...req.body` merges exactly
the keys present in the JSON body over the existing record, so the patch
is one `Option` per record field (the stamped `updated` key is always
overwritten after the spread and is not patchable). -/
structure ImagePatch where
  id : Option Int
  filename : Option String
  originalname : Option String
  storagePath : Option String
  size : Option Nat
  mimetype : Option String
  uploaded : Option Nat
  title : Option String
  description : Option String
  order : Option Int
  active : Option Bool
deriving Repr, DecidableEq

/-- Merging a patched value into an `Option`-valued record field: a key
present in the body overwrites, an absent key keeps the stored value. -/
def patchOpt {α : Type} (pv rv : Option α) : Option α :=
  match pv with
  | some v => some v
  | none => rv

/-- The spread `{ ...existing, ...body, updated: new Date().toISOString() }`. -/
def applyPatch (r : ImageRecord) (p : ImagePatch) (now : Nat) : ImageRecord :=
  { id := p.id.getD r.id
    filename := p.filename.getD r.filename
    originalname := patchOpt p.originalname r.originalname
    storagePath := patchOpt p.storagePath r.storagePath
    size := patchOpt p.size r.size
    mimetype := patchOpt p.mimetype r.mimetype
    uploaded := p.uploaded.getD r.uploaded
    updated := some now
    title := p.title.getD r.title
    description := p.description.getD r.description
    order := p.order.getD r.order
    active := p.active.getD r.active }

/-- The `findIndex(img => img.id === imageId)` scan followed by in-place
assignment: replace the first record whose id matches, returning the new
list and the merged record, or `none` when no record matches. -/
def updateById (p : ImagePatch) (now : Nat) :
    List ImageRecord → Int → Option (List ImageRecord × ImageRecord)
  | [], _ => none
  | r :: rs, imageId =>
    if r.id = imageId then
      let merged := applyPatch r p now
      some (merged :: rs, merged)
    else
      match updateById p now rs imageId with
      | none => none
      | some (l, m) => some (r :: l, m)

/-- The `PUT /api/images/:id` handler (after `parseInt` of the route
parameter). -/
def updateRoute (images : List ImageRecord) (imageId : Int) (p : ImagePatch)
    (now : Nat) : ApiResponse × List ImageRecord :=
  match updateById p now images imageId with
  | none => (.apiError 404 "Image not found", images)
  | some (l, m) => (.okImage m, l)

/-- The `findIndex` scan followed by `splice(index, 1)`: remove the first record
whose id matches, returning the shrunk list and the removed record. -/
def removeById : List ImageRecord → Int → Option (List ImageRecord × ImageRecord)
  | [], _ => none
  | r :: rs, imageId =>
    if r.id = imageId then some (rs, r)
    else
      match removeById rs imageId with
      | none => none
      | some (l, x) => some (r :: l, x)

/-- The thumbnail file the delete handler unlinks for a record. -/
def thumbFileFor (filename : String) : String := "thumbnails/" ++ filename

/-- The `DELETE /api/images/:id` handler: 404 when no record matches
(before any unlink or splice); otherwise best-effort unlink of the
backing file and thumbnail, then splice.  The third component is the
list of file paths whose deletion was attempted. -/
def deleteRoute (images : List ImageRecord) (imageId : Int) :
    ApiResponse × List ImageRecord × List String :=
  match removeById images imageId with
  | none => (.apiError 404 "Image not found", images, [])
  | some (l, img) =>
    (.okDeleted, l, [img.storagePath.getD (""), thumbFileFor img.filename])

/-! ## Persistence (`loadImages` / `saveImages`) -/

/-- The record `loadImages` builds for the file at listing position `i`
(0-based): `id = index + 1`, `order = index + 1`, title from the file
name, empty description, active. -/
def mkLoadedRecord (now : Nat) (i : Nat) (file : String) : ImageRecord :=
  { id := (i : Int) + 1
    filename := file
    originalname := none
    storagePath := none
    size := none
    mimetype := none
    uploaded := now
    updated := none
    title := parseName file
    description := ""
    order := (i : Int) + 1
    active := true }

/-- The `.map((file, index) => ...)` of `loadImages`, carrying the index. -/
def buildRecords (now : Nat) : Nat → List String → List ImageRecord
  | _, [] => []
  | i, f :: fs => mkLoadedRecord now i f :: buildRecords now (i + 1) fs

/-- The relevant on-disk state: the `images/` directory listing (`none`
models a failing `fs.readdir`) and the `data/images.json` catalog file
(`none` when absent; JSON round-trips these records faithfully, so the
file stores the record list itself). -/
structure Disk where
  imagesListing : Option (List String)
  catalogFile : Option (List ImageRecord)
deriving Repr, DecidableEq

/-- The `loadImages` scan: read the images directory, keep allow-listed
extensions, and rebuild records from scratch; a failed directory read
degrades to the empty catalog.  The persisted `catalogFile` is never
consulted. -/
def loadImages (cfg : ImagesConfig) (now : Nat) (d : Disk) : List ImageRecord :=
  match d.imagesListing with
  | none => []
  | some files => buildRecords now 0 (files.filter (allowedExt cfg))

/-- The `saveImages` write: mirror the in-memory list to `data/images.json`. -/
def saveImages (images : List ImageRecord) (d : Disk) : Disk :=
  { d with catalogFile := some images }

/-- Content equality of records in the sense of claim C1: same `id`,
`title`, `description` and `active` (the `order` field is ignored). -/
def recContentEq (a b : ImageRecord) : Bool :=
  a.id == b.id && a.title == b.title &&
    a.description == b.description && a.active == b.active

/-- Pointwise content equality of catalogs. -/
def catalogContentEq : List ImageRecord → List ImageRecord → Bool
  | [], [] => true
  | x :: xs, y :: ys => recContentEq x y && catalogContentEq xs ys
  | _, _ => false

/-! ## Broadcast hub (`broadcastToAll` / `handleControlMessage`) -/

/-- Socket `ws.readyState` values. -/
inductive ReadyState where
  | connecting
  | wsOpen
  | closing
  | wsClosed
deriving Repr, DecidableEq

/-- The JSON frames sent over the two WebSocket channels. -/
inductive WsMsg where
  | imagesList (images : List ImageRecord)
  | imageUploaded (image : ImageRecord)
  | imageUpdated (image : ImageRecord)
  | imageDeleted (imageId : Int)
  | currentSlide (slideIndex : Int)
  | playState (isPlaying : Bool)
  | navigateTo (slideIndex : Int)
  | playPause (isPlaying : Bool)
deriving Repr, DecidableEq

/-- A connected client: its socket state and the frames delivered to it. -/
structure Client where
  readyState : ReadyState
  outbox : List WsMsg
deriving Repr, DecidableEq

/-- One iteration of the broadcast loop: `if (client.readyState ===
WebSocket.OPEN) client.send(messageStr)` — an open client gets the
frame appended to its stream, any other client is left untouched. -/
def sendIfOpen (m : WsMsg) (c : Client) : Client :=
  if c.readyState = .wsOpen then { c with outbox := c.outbox ++ [m] } else c

/-- The `broadcastToAll` fan-out: independent dispatch of one frame to every client
of the display hub (`wss.clients.forEach`). -/
def broadcastToAll (clients : List Client) (m : WsMsg) : List Client :=
  clients.map (sendIfOpen m)

/-- Messages arriving on the control channel. -/
inductive ControlMsg where
  | navigate (slideIndex : Int)
  | playPauseCmd (isPlaying : Bool)
  | requestImages
  | unknown
deriving Repr, DecidableEq

/-- The `handleControlMessage` dispatch: `navigate` and `playPause` fan out to the
display clients; `request-images` answers only the sender; anything
else is ignored.  Returns the display clients and the sender after the
call. -/
def handleControlMessage (displayClients : List Client) (sender : Client)
    (images : List ImageRecord) (m : ControlMsg) : List Client × Client :=
  match m with
  | .navigate n => (broadcastToAll displayClients (.navigateTo n), sender)
  | .playPauseCmd b => (broadcastToAll displayClients (.playPause b), sender)
  | .requestImages =>
    (displayClients, { sender with outbox := sender.outbox ++ [.imagesList images] })
  | .unknown => (displayClients, sender)

/-! ## Auto-updater (`AutoUpdateSystem.performUpdate`) -/

/-- The updater state the update sequence reads and writes. -/
structure UpdaterState where
  updateInProgress : Bool
  currentVersion : String
  backupBeforeUpdate : Bool
deriving Repr, DecidableEq

/-- The externally visible side effects of one `performUpdate` call, in
order. -/
inductive UpdEffect where
  | statusBroadcast (tag : String)
  | backupCreated
  | downloaded
  | validated
  | installed
  | configurationUpdated
  | cleanedUp
  | restoredFromBackup
  | restartScheduled
deriving Repr, DecidableEq

/-- Oracle for the outcomes of the I/O steps of the update sequence
(release lookup, backup, download, validation, install, configuration
write, cleanup). -/
structure UpdEnv where
  updateAvailable : Bool
  latestVersion : String
  backupOk : Bool
  downloadOk : Bool
  validateOk : Bool
  installOk : Bool
  configOk : Bool
  cleanupOk : Bool
deriving Repr, DecidableEq

/-- The result object `performUpdate` resolves with. -/
structure UpdateResult where
  success : Bool
  error : Option String
  message : Option String
deriving Repr, DecidableEq

/-- The `catch` block of `performUpdate`: restore from backup, broadcast
the error, clear the busy flag, resolve with a failure result. -/
def updateCatch (msg : String) (effs : List UpdEffect) (s1 : UpdaterState) :
    UpdateResult × UpdaterState × List UpdEffect :=
  ({ success := false, error := some msg,
     message := some ("Update failed, restored from backup") },
   { s1 with updateInProgress := false },
   effs ++ [.restoredFromBackup, .statusBroadcast ("error")])

/-- The `AutoUpdateSystem.performUpdate(force)` sequence.  The guard returns the busy
error before any flag write, broadcast or file operation.  Past the
guard the flag is set, the steps run in sequence with any failure
diverted to the catch block, and — as in the source — the success path
never clears `updateInProgress` before resolving. -/
def performUpdate (force : Bool) (s : UpdaterState) (env : UpdEnv) :
    UpdateResult × UpdaterState × List UpdEffect :=
  if s.updateInProgress then
    ({ success := false, error := some ("Update already in progress"),
       message := none }, s, [])
  else
    let s1 : UpdaterState := { s with updateInProgress := true }
    let eff0 : List UpdEffect := [.statusBroadcast ("start")]
    if ¬ force ∧ ¬ env.updateAvailable then
      ({ success := false, error := some ("No update available"), message := none },
        { s1 with updateInProgress := false }, eff0)
    else if s.backupBeforeUpdate ∧ ¬ env.backupOk then
      updateCatch ("Backup failed") eff0 s1
    else
      let eff1 := eff0 ++
        (if s.backupBeforeUpdate then [UpdEffect.backupCreated] else []) ++
        [UpdEffect.statusBroadcast ("progress")]
      if ¬ env.downloadOk then updateCatch ("Download failed") eff1 s1
      else
        let eff2 := eff1 ++ [UpdEffect.downloaded, UpdEffect.statusBroadcast ("progress")]
        if ¬ env.validateOk then updateCatch ("Validation failed") eff2 s1
        else
          let eff3 := eff2 ++ [UpdEffect.validated, UpdEffect.statusBroadcast ("progress")]
          if ¬ env.installOk then updateCatch ("Install failed") eff3 s1
          else
            let eff4 := eff3 ++ [UpdEffect.installed, UpdEffect.statusBroadcast ("progress")]
            if ¬ env.configOk then updateCatch ("Configuration failed") eff4 s1
            else
              let eff5 := eff4 ++
                [UpdEffect.configurationUpdated, UpdEffect.statusBroadcast ("progress")]
              if ¬ env.cleanupOk then updateCatch ("Cleanup failed") eff5 s1
              else
                ({ success := true, error := none, message := some ("Update completed") },
                 { s1 with currentVersion := env.latestVersion },
                 eff5 ++ [UpdEffect.cleanedUp, UpdEffect.statusBroadcast ("complete"),
                          UpdEffect.restartScheduled])

/-! ## Thumbnail generator (`server/thumbnail-generator.js`) -/

/-- A file on disk with its modification time (ms). -/
structure FileEntry where
  name : String
  mtime : Nat
deriving Repr, DecidableEq

/-- Stat (`fs.stat`) by name over a directory state. -/
def lookupEntry (fs : List FileEntry) (n : String) : Option FileEntry :=
  fs.find? (fun e => e.name == n)

/-- Writing a file: replace the entry of the same name (keeping the
directory order) or append a new one, with the write time as mtime. -/
def upsertEntry : List FileEntry → String → Nat → List FileEntry
  | [], n, t => [⟨n, t⟩]
  | e :: es, n, t =>
    if e.name = n then ⟨n, t⟩ :: es else e :: upsertEntry es n t

/-- The freshness guard of `generateThumbnail`: both stats succeed and
`outputStats.mtime >= inputStats.mtime`. -/
def isFresh (images thumbs : List FileEntry) (n : String) : Bool :=
  match lookupEntry images n, lookupEntry thumbs n with
  | some i, some o => decide (i.mtime ≤ o.mtime)
  | _, _ => false

inductive ThumbResult where
  | skipped
  | generated
  | failed
deriving Repr, DecidableEq

/-- One `ThumbnailGenerator.generateThumbnail(filename)` run at time `t`:
skip (no write) when the existing thumbnail is fresh; otherwise attempt
generation — `ok` says whether sharp succeeds on this file (content is
unchanged between runs, so the outcome is a function of the name); the
cover-resize fallback to fit-inside is internal to one attempt.  A
failed attempt writes nothing. -/
def generateThumbnail (ok : String → Bool) (t : Nat)
    (images thumbs : List FileEntry) (n : String) : ThumbResult × List FileEntry :=
  if isFresh images thumbs n then (.skipped, thumbs)
  else if ok n then (.generated, upsertEntry thumbs n t)
  else (.failed, thumbs)

/-- The image-extension filter of `generateAllThumbnails`. -/
def imageExts : List String := [".jpg", ".jpeg", ".png", ".gif", ".webp", ".bmp"]

def isImageFile (n : String) : Bool := imageExts.contains (toLowerStr (extname n))

/-- The sequential loop over the filtered file names, threading the
thumbnail directory state. -/
def genList (ok : String → Bool) (t : Nat) (images : List FileEntry) :
    List String → List FileEntry → List FileEntry
  | [], thumbs => thumbs
  | n :: ns, thumbs =>
    genList ok t images ns (generateThumbnail ok t images thumbs n).2

/-- A `generateAllThumbnails` run at time `t`: process every image file of
the source directory in listing order. -/
def generateAllThumbnails (ok : String → Bool) (t : Nat)
    (images thumbs : List FileEntry) : List FileEntry :=
  genList ok t images ((images.filter (fun e => isImageFile e.name)).map
    (fun e => e.name)) thumbs

/-! ## Concrete fixtures used by the witnesses and counterexamples -/

def sampleCfg : ImagesConfig :=
  { allowedExtensions := [".jpg", ".jpeg", ".png", ".gif"], maxFileSize := 5242880 }

def sampleUploaded : ImageRecord :=
  { id := 1
    filename := "f1a2b3"
    originalname := some ("photo.jpg")
    storagePath := some ("images/f1a2b3")
    size := some 2097152
    mimetype := some ("image/jpeg")
    uploaded := 5
    updated := none
    title := "photo"
    description := ""
    order := 1
    active := true }

def recordTwo : ImageRecord :=
  { id := 2
    filename := "c4d5e6"
    originalname := some ("logo.png")
    storagePath := some ("images/c4d5e6")
    size := some 1048576
    mimetype := some ("image/png")
    uploaded := 6
    updated := none
    title := "logo"
    description := "second record"
    order := 2
    active := true }

def customRecord : ImageRecord :=
  { id := 1700000000000
    filename := "a.jpg"
    originalname := some ("a.jpg")
    storagePath := some ("images/a.jpg")
    size := some 100
    mimetype := some ("image/jpeg")
    uploaded := 1700000000000
    updated := none
    title := "Custom title"
    description := "hand-written notes"
    order := 1
    active := false }

def fileA : FileMeta :=
  { originalname := "photo.jpg", filename := "f1a2b3", path := "images/f1a2b3",
    size := 2097152, mimetype := "image/jpeg" }

def fileB : FileMeta :=
  { originalname := "logo.png", filename := "c4d5e6", path := "images/c4d5e6",
    size := 1048576, mimetype := "image/png" }

def fileExe : FileMeta :=
  { originalname := "malware.exe", filename := "a7b8c9", path := "images/a7b8c9",
    size := 1024, mimetype := "application/octet-stream" }

def samplePatch : ImagePatch :=
  { id := none, filename := none, originalname := none, storagePath := none,
    size := none, mimetype := none, uploaded := none,
    title := some ("New title"), description := none, order := none,
    active := some false }

def busyState : UpdaterState :=
  { updateInProgress := true, currentVersion := "1.0.0", backupBeforeUpdate := true }

def sampleEnv : UpdEnv :=
  { updateAvailable := true, latestVersion := "1.1.0", backupOk := true,
    downloadOk := true, validateOk := true, installOk := true,
    configOk := true, cleanupOk := true }

def displayA : Client := { readyState := .wsOpen, outbox := [] }

def displayB : Client := { readyState := .wsOpen, outbox := [WsMsg.playState true] }

def displayGone : Client := { readyState := .wsClosed, outbox := [] }

def controlSender : Client := { readyState := .wsOpen, outbox := [] }

lemma cmpParts_self (xs : List Int) : cmpParts xs xs = false := by
  induction xs with
  | nil => simp [cmpParts]
  | cons x xs ih => simp [cmpParts, ih]

lemma cmpParts_asymm (xs ys : List Int) :
    (cmpParts xs ys && cmpParts ys xs) = false := by
  induction xs generalizing ys with
  | nil =>
    induction ys with
    | nil => simp [cmpParts]
    | cons y ys ih =>
      by_cases h1 : (0 : Int) > y
      · have h2 : y < 0 := h1
        simp [cmpParts, h1, h2, not_lt.mpr (le_of_lt h2)]
      · by_cases h3 : (0 : Int) < y
        · simp [cmpParts, h1, h3, not_lt.mpr (le_of_lt h3)]
        · simp [cmpParts, h1, h3] at ih ⊢
          exact ih
  | cons x xs ih =>
    cases ys with
    | nil =>
      by_cases h1 : x > 0
      · simp [cmpParts, h1, not_lt.mpr (le_of_lt h1)]
      · by_cases h3 : x < 0
        · simp [cmpParts, h1, h3, not_lt.mpr (le_of_lt h3)]
        · have := ih []
          simp [cmpParts, h1, h3] at this ⊢
          exact this
    | cons y ys =>
      by_cases h1 : x > y
      · simp [cmpParts, h1, not_lt.mpr (le_of_lt h1)]
      · by_cases h3 : x < y
        · simp [cmpParts, h1, h3, not_lt.mpr (le_of_lt h3)]
        · have := ih ys
          simp [cmpParts, h1, h3] at this ⊢
          exact this

/-- C10: `isNewerVersion` strips one leading 'v', splits on dots, and
compares numeric components left to right with missing components
treated as 0; it is irreflexive (`isNewerVersion v v = false`) and
asymmetric (`isNewerVersion a b` and `isNewerVersion b a` are never both
true). -/
theorem isNewerVersion_strict_order (v a b : String) :
    isNewerVersion v v = false ∧
    (isNewerVersion a b && isNewerVersion b a) = false := by
  constructor
  · exact cmpParts_self _
  · exact cmpParts_asymm _ _

lemma removeById_eq_none {images : List ImageRecord} {imageId : Int}
    (h : ∀ r ∈ images, r.id ≠ imageId) : removeById images imageId = none := by
  induction images with
  | nil => rfl
  | cons r rs ih =>
    have hr : r.id ≠ imageId := h r (List.mem_cons_self r rs)
    have hrs := ih (fun q hq => h q (List.mem_cons_of_mem r hq))
    simp [removeById, hr, hrs]

/-- C3: deleting an id that matches no record in the catalog answers
404 "Image not found", leaves the catalog list exactly as it was, and
attempts no backing-file or thumbnail deletion. -/
theorem deleteRoute_notFound (images : List ImageRecord) (imageId : Int)
    (h : ∀ r ∈ images, r.id ≠ imageId) :
    deleteRoute images imageId =
      (ApiResponse.apiError 404 ("Image not found"), images, ([] : List String)) := by
  simp [deleteRoute, removeById_eq_none h]

/-- Witness for C3 at a concrete catalog and missing id. -/
theorem deleteRoute_notFound_witness :
    deleteRoute [sampleUploaded, recordTwo] 77 =
      (ApiResponse.apiError 404 ("Image not found"),
        [sampleUploaded, recordTwo], ([] : List String)) :=
  deleteRoute_notFound [sampleUploaded, recordTwo] 77 (by decide)

/-- C8: with the busy flag set, `performUpdate` — forced or not —
returns success false with error "Update already in progress"
immediately: the updater state is exactly as before and no backup,
download, validation, install, configuration write, cleanup, broadcast,
restore or restart happens. -/
theorem performUpdate_busy (force : Bool) (s : UpdaterState) (env : UpdEnv)
    (h : s.updateInProgress = true) :
    performUpdate force s env =
      ({ success := false, error := some ("Update already in progress"),
         message := none }, s, ([] : List UpdEffect)) := by
  simp [performUpdate, h]

/-- Witness for C8: a busy updater rejects both a forced and an unforced
call without any effect. -/
theorem performUpdate_busy_witness :
    performUpdate true busyState sampleEnv =
      ({ success := false, error := some ("Update already in progress"),
         message := none }, busyState, ([] : List UpdEffect)) ∧
    performUpdate false busyState sampleEnv =
      ({ success := false, error := some ("Update already in progress"),
         message := none }, busyState, ([] : List UpdEffect)) :=
  ⟨performUpdate_busy true busyState sampleEnv rfl,
   performUpdate_busy false busyState sampleEnv rfl⟩

lemma get_broadcastToAll (clients : List Client) (m : WsMsg) (i : Nat)
    (h1 : i < clients.length) (h2 : i < (broadcastToAll clients m).length) :
    (broadcastToAll clients m).get ⟨i, h2⟩ = sendIfOpen m (clients.get ⟨i, h1⟩) := by
  simp [broadcastToAll]

/-- C7: a control-channel navigate message with slide index `n` makes
every display client whose socket is OPEN receive exactly one
navigate-to frame with the same index appended to its stream, while
every non-open display client is left untouched — the loop skips it and
still delivers to all the others (the list of clients after the call has
the same length, every position is accounted for). -/
theorem handleControlMessage_navigate (clients : List Client) (sender : Client)
    (images : List ImageRecord) (n : Int) :
    (handleControlMessage clients sender images (.navigate n)).1.length
        = clients.length ∧
    (handleControlMessage clients sender images (.navigate n)).2 = sender ∧
    (∀ i (h1 : i < clients.length)
        (h2 : i < (handleControlMessage clients sender images (.navigate n)).1.length),
      ((clients.get ⟨i, h1⟩).readyState = ReadyState.wsOpen →
        ((handleControlMessage clients sender images (.navigate n)).1.get ⟨i, h2⟩).outbox
            = (clients.get ⟨i, h1⟩).outbox ++ [WsMsg.navigateTo n] ∧
        ((handleControlMessage clients sender images (.navigate n)).1.get ⟨i, h2⟩).readyState
            = (clients.get ⟨i, h1⟩).readyState) ∧
      ((clients.get ⟨i, h1⟩).readyState ≠ ReadyState.wsOpen →
        (handleControlMessage clients sender images (.navigate n)).1.get ⟨i, h2⟩
            = clients.get ⟨i, h1⟩)) := by
  refine ⟨by simp [handleControlMessage, broadcastToAll], rfl, ?_⟩
  intro i h1 h2
  have hget : (handleControlMessage clients sender images (.navigate n)).1.get ⟨i, h2⟩
      = sendIfOpen (WsMsg.navigateTo n) (clients.get ⟨i, h1⟩) :=
    get_broadcastToAll clients (WsMsg.navigateTo n) i h1 h2
  constructor
  · intro hopen
    rw [hget]
    simp only [sendIfOpen, List.get_eq_getElem] at hopen ⊢
    rw [if_pos hopen]
    exact ⟨rfl, rfl⟩
  · intro hnot
    rw [hget]
    simp only [sendIfOpen, List.get_eq_getElem] at hnot ⊢
    rw [if_neg hnot]

/-- Witness for C7: two open display clients both receive navigate-to 3,
a closed client in between is skipped unchanged. -/
theorem handleControlMessage_navigate_witness :
    ((handleControlMessage [displayA, displayGone, displayB] controlSender []
        (.navigate 3)).1.get ⟨0, by decide⟩).outbox
      = displayA.outbox ++ [WsMsg.navigateTo 3] ∧
    (handleControlMessage [displayA, displayGone, displayB] controlSender []
        (.navigate 3)).1.get ⟨1, by decide⟩ = displayGone ∧
    ((handleControlMessage [displayA, displayGone, displayB] controlSender []
        (.navigate 3)).1.get ⟨2, by decide⟩).outbox
      = displayB.outbox ++ [WsMsg.navigateTo 3] := by
  refine ⟨?_, ?_, ?_⟩
  · exact (((handleControlMessage_navigate [displayA, displayGone, displayB]
      controlSender [] 3).2.2 0 (by decide) (by decide)).1 (by decide)).1
  · exact ((handleControlMessage_navigate [displayA, displayGone, displayB]
      controlSender [] 3).2.2 1 (by decide) (by decide)).2 (by decide)
  · exact (((handleControlMessage_navigate [displayA, displayGone, displayB]
      controlSender [] 3).2.2 2 (by decide) (by decide)).1 (by decide)).1

lemma updateById_eq_none {p : ImagePatch} {now : Nat} {images : List ImageRecord}
    {imageId : Int} (h : ∀ r ∈ images, r.id ≠ imageId) :
    updateById p now images imageId = none := by
  induction images with
  | nil => rfl
  | cons r rs ih =>
    have hr : r.id ≠ imageId := h r (List.mem_cons_self r rs)
    have hrs := ih (fun q hq => h q (List.mem_cons_of_mem r hq))
    simp [updateById, hr, hrs]

lemma updateById_first (p : ImagePatch) (now : Nat) (pre : List ImageRecord)
    (r : ImageRecord) (post : List ImageRecord) (imageId : Int)
    (hpre : ∀ q ∈ pre, q.id ≠ imageId) (hr : r.id = imageId) :
    updateById p now (pre ++ r :: post) imageId =
      some (pre ++ applyPatch r p now :: post, applyPatch r p now) := by
  induction pre with
  | nil => simp [updateById, hr]
  | cons q qs ih =>
    have hq : q.id ≠ imageId := hpre q (List.mem_cons_self q qs)
    have := ih (fun x hx => hpre x (List.mem_cons_of_mem q hx))
    simp [updateById, hq, this]

/-- C4: updating an existing id merges exactly the provided fields over
the first matching record and stamps `updated` with the call time; every
field of that record not named in the patch keeps its prior value, every
other record of the catalog is untouched, and a missing id answers 404
"Image not found" with the catalog unchanged. -/
theorem updateRoute_spec (images : List ImageRecord) (imageId : Int)
    (p : ImagePatch) (now : Nat) :
    ((∀ r ∈ images, r.id ≠ imageId) →
      updateRoute images imageId p now =
        (ApiResponse.apiError 404 ("Image not found"), images)) ∧
    (∀ pre r post, images = pre ++ r :: post →
      (∀ q ∈ pre, q.id ≠ imageId) → r.id = imageId →
      updateRoute images imageId p now =
        (ApiResponse.okImage (applyPatch r p now),
          pre ++ applyPatch r p now :: post) ∧
      (applyPatch r p now).updated = some now ∧
      (p.id = none → (applyPatch r p now).id = r.id) ∧
      (∀ v, p.id = some v → (applyPatch r p now).id = v) ∧
      (p.filename = none → (applyPatch r p now).filename = r.filename) ∧
      (∀ v, p.filename = some v → (applyPatch r p now).filename = v) ∧
      (p.originalname = none → (applyPatch r p now).originalname = r.originalname) ∧
      (∀ v, p.originalname = some v → (applyPatch r p now).originalname = some v) ∧
      (p.storagePath = none → (applyPatch r p now).storagePath = r.storagePath) ∧
      (∀ v, p.storagePath = some v → (applyPatch r p now).storagePath = some v) ∧
      (p.size = none → (applyPatch r p now).size = r.size) ∧
      (∀ v, p.size = some v → (applyPatch r p now).size = some v) ∧
      (p.mimetype = none → (applyPatch r p now).mimetype = r.mimetype) ∧
      (∀ v, p.mimetype = some v → (applyPatch r p now).mimetype = some v) ∧
      (p.uploaded = none → (applyPatch r p now).uploaded = r.uploaded) ∧
      (∀ v, p.uploaded = some v → (applyPatch r p now).uploaded = v) ∧
      (p.title = none → (applyPatch r p now).title = r.title) ∧
      (∀ v, p.title = some v → (applyPatch r p now).title = v) ∧
      (p.description = none → (applyPatch r p now).description = r.description) ∧
      (∀ v, p.description = some v → (applyPatch r p now).description = v) ∧
      (p.order = none → (applyPatch r p now).order = r.order) ∧
      (∀ v, p.order = some v → (applyPatch r p now).order = v) ∧
      (p.active = none → (applyPatch r p now).active = r.active) ∧
      (∀ v, p.active = some v → (applyPatch r p now).active = v)) := by
  constructor
  · intro h
    simp [updateRoute, updateById_eq_none h]
  · intro pre r post hsplit hpre hr
    subst hsplit
    refine ⟨by simp [updateRoute, updateById_first p now pre r post imageId hpre hr],
      ?_, ?_, ?_, ?_, ?_, ?_, ?_, ?_, ?_, ?_, ?_, ?_, ?_, ?_, ?_, ?_, ?_, ?_, ?_,
      ?_, ?_, ?_, ?_⟩ <;> intros <;> simp_all [applyPatch, patchOpt]

/-- Witness for C4 at a concrete catalog, patching title and active of
the record with id 2. -/
theorem updateRoute_spec_witness :
    updateRoute [sampleUploaded, recordTwo] 2 samplePatch 99 =
      (ApiResponse.okImage (applyPatch recordTwo samplePatch 99),
        [sampleUploaded, applyPatch recordTwo samplePatch 99]) :=
  ((updateRoute_spec [sampleUploaded, recordTwo] 2 samplePatch 99).2
      [sampleUploaded] recordTwo [] rfl (by decide) rfl).1

lemma buildRecords_length (now : Nat) (i : Nat) (fs : List String) :
    (buildRecords now i fs).length = fs.length := by
  induction fs generalizing i with
  | nil => rfl
  | cons f fs ih => simp [buildRecords, ih]

lemma buildRecords_get (now : Nat) :
    ∀ (fs : List String) (i j : Nat) (h1 : j < (buildRecords now i fs).length)
      (h2 : j < fs.length),
      (buildRecords now i fs).get ⟨j, h1⟩ = mkLoadedRecord now (i + j) (fs.get ⟨j, h2⟩)
  | [], _, j, _, h2 => absurd h2 (Nat.not_lt_zero j)
  | f :: fs, i, 0, _, _ => by simp [buildRecords]
  | f :: fs, i, j + 1, h1, h2 => by
    have h1' : j < (buildRecords now (i + 1) fs).length := by
      have hx := h1
      rw [buildRecords_length] at hx
      rw [buildRecords_length]
      exact Nat.lt_of_succ_lt_succ hx
    have h2' : j < fs.length := Nat.lt_of_succ_lt_succ h2
    have hcons : (buildRecords now i (f :: fs)).get ⟨j + 1, h1⟩
        = (buildRecords now (i + 1) fs).get ⟨j, h1'⟩ := rfl
    rw [hcons, buildRecords_get now fs (i + 1) j h1' h2']
    have hidx : i + 1 + j = i + (j + 1) := by omega
    rw [hidx]
    rfl

/-- C6: `loadImages` builds exactly one record per file of the directory
listing whose extension is allow-listed (every other file is excluded),
with id and order values running 1, 2, ... in listing position; a failed
directory read yields the empty catalog instead of failing the process. -/
theorem loadImages_spec (cfg : ImagesConfig) (now : Nat)
    (catFile : Option (List ImageRecord)) (files : List String) :
    loadImages cfg now ⟨none, catFile⟩ = [] ∧
    (loadImages cfg now ⟨some files, catFile⟩).length
        = (files.filter (allowedExt cfg)).length ∧
    (∀ i (h1 : i < (loadImages cfg now ⟨some files, catFile⟩).length)
        (h2 : i < (files.filter (allowedExt cfg)).length),
      ((loadImages cfg now ⟨some files, catFile⟩).get ⟨i, h1⟩).id = (i : Int) + 1 ∧
      ((loadImages cfg now ⟨some files, catFile⟩).get ⟨i, h1⟩).order = (i : Int) + 1 ∧
      ((loadImages cfg now ⟨some files, catFile⟩).get ⟨i, h1⟩).filename
          = (files.filter (allowedExt cfg)).get ⟨i, h2⟩ ∧
      allowedExt cfg
        ((loadImages cfg now ⟨some files, catFile⟩).get ⟨i, h1⟩).filename = true) := by
  refine ⟨rfl, by simp [loadImages, buildRecords_length], ?_⟩
  intro i h1 h2
  have hget : (loadImages cfg now ⟨some files, catFile⟩).get ⟨i, h1⟩
      = mkLoadedRecord now (0 + i) ((files.filter (allowedExt cfg)).get ⟨i, h2⟩) :=
    buildRecords_get now (files.filter (allowedExt cfg)) 0 i h1 h2
  have hmem : (files.filter (allowedExt cfg)).get ⟨i, h2⟩ ∈ files.filter (allowedExt cfg) :=
    List.get_mem _ _ _
  have hall : allowedExt cfg ((files.filter (allowedExt cfg)).get ⟨i, h2⟩) = true :=
    List.of_mem_filter hmem
  rw [hget]
  exact ⟨by simp [mkLoadedRecord], by simp [mkLoadedRecord],
    by simp [mkLoadedRecord], by simpa [mkLoadedRecord] using hall⟩

/-- Witness for C6: a three-file listing with one non-image file yields
two records; the second has id 2; the failure branch yields `[]`. -/
theorem loadImages_spec_witness :
    loadImages sampleCfg 7 ⟨none, none⟩ = [] ∧
    (loadImages sampleCfg 7 ⟨some ["a.jpg", "notes.txt", "b.png"], none⟩).length = 2 ∧
    ((loadImages sampleCfg 7
        ⟨some ["a.jpg", "notes.txt", "b.png"], none⟩).get ⟨1, by decide⟩).id = 2 := by
  refine ⟨(loadImages_spec sampleCfg 7 none ["a.jpg", "notes.txt", "b.png"]).1, ?_, ?_⟩
  · have h := (loadImages_spec sampleCfg 7 none ["a.jpg", "notes.txt", "b.png"]).2.1
    rw [h]
    decide
  · have h := ((loadImages_spec sampleCfg 7 none
      ["a.jpg", "notes.txt", "b.png"]).2.2 1 (by decide) (by decide)).1
    simpa using h

/-- C2 counterexample: two valid uploads handled in the same millisecond
(`Date.now()` returns 1000 for both) each succeed with 200, and the
resulting catalog holds two records with the same id — ids are not
unique. -/
theorem upload_same_millisecond_duplicate :
    (uploadRoute sampleCfg [] fileA 1000).1.statusCode = 200 ∧
    (uploadRoute sampleCfg
        (uploadRoute sampleCfg [] fileA 1000).2 fileB 1000).1.statusCode = 200 ∧
    ¬ (((uploadRoute sampleCfg
        (uploadRoute sampleCfg [] fileA 1000).2 fileB 1000).2.map
          (fun r => r.id)).Nodup) := by
  decide

/-- C2 amended: a valid upload handled at time `now` (which is at or
after the request start) returns a record with `id = now`, hence at
least the request start time; the id is new — and catalog ids stay
pairwise distinct — provided no existing record already carries the
current millisecond as id (two uploads within one millisecond do
collide). -/
theorem upload_valid_id (cfg : ImagesConfig) (images : List ImageRecord)
    (file : FileMeta) (now tStart : Nat)
    (hstart : tStart ≤ now)
    (hext : allowedExt cfg file.originalname = true)
    (hsize : file.size ≤ cfg.maxFileSize)
    (hid : ∀ r ∈ images, r.id ≠ (now : Int))
    (hnodup : (images.map (fun r => r.id)).Nodup) :
    uploadRoute cfg images file now =
      (ApiResponse.okImage (mkUploadRecord images file now),
        images ++ [mkUploadRecord images file now]) ∧
    (mkUploadRecord images file now).id = (now : Int) ∧
    (tStart : Int) ≤ (mkUploadRecord images file now).id ∧
    ((images ++ [mkUploadRecord images file now]).map (fun r => r.id)).Nodup := by
  refine ⟨?_, rfl, ?_, ?_⟩
  · simp only [uploadRoute]
    rw [if_neg (not_not_intro hext), if_neg (Nat.not_lt.mpr hsize)]
  · have : (mkUploadRecord images file now).id = (now : Int) := rfl
    rw [this]
    exact_mod_cast hstart
  · rw [List.map_append]
    apply List.Nodup.append hnodup (List.nodup_singleton _)
    intro a ha hb
    simp only [List.map_cons, List.map_nil, List.mem_singleton] at hb
    rcases List.mem_map.mp ha with ⟨r, hrmem, hrid⟩
    exact hid r hrmem (hrid.trans hb)

/-- Witness for the amended C2 at a concrete catalog and file. -/
theorem upload_valid_id_witness :
    uploadRoute sampleCfg [sampleUploaded] fileB 1000 =
      (ApiResponse.okImage (mkUploadRecord [sampleUploaded] fileB 1000),
        [sampleUploaded] ++ [mkUploadRecord [sampleUploaded] fileB 1000]) ∧
    (mkUploadRecord [sampleUploaded] fileB 1000).id = (1000 : Int) ∧
    ((990 : Nat) : Int) ≤ (mkUploadRecord [sampleUploaded] fileB 1000).id ∧
    (([sampleUploaded] ++ [mkUploadRecord [sampleUploaded] fileB 1000]).map
        (fun r => r.id)).Nodup :=
  upload_valid_id sampleCfg [sampleUploaded] fileB 1000 990 (by decide) (by decide)
    (by decide) (by decide) (by decide)

/-- C5 counterexample: an upload with a non-allow-listed `.exe` extension
is rejected with status 500 — not a 4xx status — and the catalog is
unchanged. -/
theorem upload_exe_status_500 :
    (uploadRoute sampleCfg [sampleUploaded] fileExe 1000).1
        = ApiResponse.apiError 500 ("Invalid file type") ∧
    ¬ (400 ≤ (uploadRoute sampleCfg [sampleUploaded] fileExe 1000).1.statusCode ∧
        (uploadRoute sampleCfg [sampleUploaded] fileExe 1000).1.statusCode < 500) ∧
    (uploadRoute sampleCfg [sampleUploaded] fileExe 1000).2 = [sampleUploaded] := by
  decide

/-- C5 amended: an upload whose extension is not allow-listed or whose
size exceeds the configured maximum fails with an error response
carrying a non-empty message — surfaced with status 500, not 4xx, since
the server has no error middleware and its handler catch answers 500 —
and no record is added to the catalog. -/
theorem upload_invalid_rejected (cfg : ImagesConfig) (images : List ImageRecord)
    (file : FileMeta) (now : Nat)
    (h : allowedExt cfg file.originalname = false ∨ cfg.maxFileSize < file.size) :
    ∃ msg, uploadRoute cfg images file now = (ApiResponse.apiError 500 msg, images)
      ∧ msg ≠ "" := by
  by_cases hext : allowedExt cfg file.originalname = true
  · have hsize : cfg.maxFileSize < file.size := by
      rcases h with h1 | h2
      · rw [hext] at h1
        cases h1
      · exact h2
    refine ⟨"File too large", ?_, by decide⟩
    simp only [uploadRoute]
    rw [if_neg (not_not_intro hext), if_pos hsize]
  · refine ⟨"Invalid file type", ?_, by decide⟩
    simp only [uploadRoute]
    rw [if_pos hext]

/-- Witness for the amended C5 at the `.exe` upload. -/
theorem upload_invalid_rejected_witness :
    ∃ msg, uploadRoute sampleCfg [sampleUploaded] fileExe 1000
        = (ApiResponse.apiError 500 msg, [sampleUploaded]) ∧ msg ≠ "" :=
  upload_invalid_rejected sampleCfg [sampleUploaded] fileExe 1000 (Or.inl (by decide))

/-- C1: evaluation of the save-then-load round trip at a concrete
catalog.  `saveImages` does write the catalog to `data/images.json`, but
`loadImages` rebuilds records solely from the `images/` directory
listing (fresh sequential ids, title from the file name, empty
description, active true), so the reloaded list fails content equality
(id, title, description, active — order ignored) with the saved one. -/
theorem save_load_roundtrip_loses_content :
    (saveImages [customRecord] ⟨some ["a.jpg"], none⟩).catalogFile
        = some [customRecord] ∧
    loadImages sampleCfg 2000 (saveImages [customRecord] ⟨some ["a.jpg"], none⟩)
        = [mkLoadedRecord 2000 0 ("a.jpg")] ∧
    catalogContentEq
      (loadImages sampleCfg 2000 (saveImages [customRecord] ⟨some ["a.jpg"], none⟩))
      [customRecord] = false := by
  decide

/-- A name is stable for the generator when its thumbnail is fresh or
generation fails on it: in either case a run writes nothing for it. -/
def thumbStable (ok : String → Bool) (images thumbs : List FileEntry)
    (n : String) : Prop :=
  isFresh images thumbs n = true ∨ ok n = false

lemma lookupEntry_cons (x : FileEntry) (xs : List FileEntry) (m : String) :
    lookupEntry (x :: xs) m = if x.name = m then some x else lookupEntry xs m := by
  by_cases h : x.name = m
  · simp [lookupEntry, List.find?, h]
  · have hb : (x.name == m) = false := beq_eq_false_iff_ne.mpr h
    simp [lookupEntry, List.find?, h, hb]

lemma lookupEntry_upsert (th : List FileEntry) (n m : String) (t : Nat) :
    lookupEntry (upsertEntry th n t) m =
      if m = n then some ⟨n, t⟩ else lookupEntry th m := by
  induction th with
  | nil =>
    have hrw : upsertEntry [] n t = [⟨n, t⟩] := rfl
    rw [hrw, lookupEntry_cons]
    by_cases h : m = n
    · simp [h]
    · have h' : ¬ n = m := fun hc => h hc.symm
      simp [h, h', lookupEntry, List.find?]
  | cons e es ih =>
    by_cases he : e.name = n
    · have hrw : upsertEntry (e :: es) n t = ⟨n, t⟩ :: es := by
        simp [upsertEntry, he]
      rw [hrw, lookupEntry_cons, lookupEntry_cons]
      by_cases h : m = n
      · simp [h]
      · have h' : ¬ n = m := fun hc => h hc.symm
        have hem : ¬ e.name = m := by
          rw [he]
          exact h'
        simp [h, h', hem]
    · have hrw : upsertEntry (e :: es) n t = e :: upsertEntry es n t := by
        simp [upsertEntry, he]
      rw [hrw, lookupEntry_cons, lookupEntry_cons, ih]
      by_cases hm : e.name = m
      · have hmn : ¬ m = n := fun hc => he (hm.trans hc)
        simp [hm, hmn]
      · simp [hm]

lemma step_noop (ok : String → Bool) (t : Nat) (images th : List FileEntry)
    (n : String) (hs : thumbStable ok images th n) :
    (generateThumbnail ok t images th n).2 = th := by
  rcases hs with h | h
  · simp [generateThumbnail, h]
  · by_cases hf : isFresh images th n = true <;> simp [generateThumbnail, hf, h]

lemma genList_noop (ok : String → Bool) (t : Nat) (images : List FileEntry) :
    ∀ (names : List String) (th : List FileEntry),
      (∀ n ∈ names, thumbStable ok images th n) → genList ok t images names th = th
  | [], _, _ => rfl
  | n :: ns, th, h => by
    have hstep : (generateThumbnail ok t images th n).2 = th :=
      step_noop ok t images th n (h n (List.mem_cons_self n ns))
    have hrw : genList ok t images (n :: ns) th
        = genList ok t images ns (generateThumbnail ok t images th n).2 := rfl
    rw [hrw, hstep]
    exact genList_noop ok t images ns th (fun m hm => h m (List.mem_cons_of_mem n hm))

lemma step_preserves_stable (ok : String → Bool) (t : Nat)
    (images th : List FileEntry) (m n : String)
    (hs : thumbStable ok images th n) :
    thumbStable ok images (generateThumbnail ok t images th m).2 n := by
  rcases hs with h | h
  · by_cases hfm : isFresh images th m = true
    · left
      have hstep : (generateThumbnail ok t images th m).2 = th := by
        simp [generateThumbnail, hfm]
      rw [hstep]
      exact h
    · by_cases hok : ok m = true
      · by_cases hnm : n = m
        · subst hnm
          exact absurd h hfm
        · left
          have hstep : (generateThumbnail ok t images th m).2 = upsertEntry th m t := by
            simp [generateThumbnail, hfm, hok]
          have hlook : lookupEntry (upsertEntry th m t) n = lookupEntry th n := by
            rw [lookupEntry_upsert]
            exact if_neg hnm
          rw [hstep]
          unfold isFresh at h ⊢
          rw [hlook]
          exact h
      · left
        have hok' : ok m = false := by simpa using hok
        have hstep : (generateThumbnail ok t images th m).2 = th := by
          simp [generateThumbnail, hfm, hok']
        rw [hstep]
        exact h
  · exact Or.inr h

lemma genList_preserves_stable (ok : String → Bool) (t : Nat)
    (images : List FileEntry) (n : String) :
    ∀ (names : List String) (th : List FileEntry),
      thumbStable ok images th n →
      thumbStable ok images (genList ok t images names th) n
  | [], _, h => h
  | m :: ms, th, h =>
    genList_preserves_stable ok t images n ms _
      (step_preserves_stable ok t images th m n h)

lemma stable_after_step (ok : String → Bool) (t : Nat)
    (images th : List FileEntry) (n : String)
    (hmt : ∀ e ∈ images, e.mtime ≤ t)
    (hsrc : (lookupEntry images n).isSome) :
    thumbStable ok images (generateThumbnail ok t images th n).2 n := by
  by_cases hf : isFresh images th n = true
  · left
    have hstep : (generateThumbnail ok t images th n).2 = th := by
      simp [generateThumbnail, hf]
    rw [hstep]
    exact hf
  · by_cases hok : ok n = true
    · left
      have hstep : (generateThumbnail ok t images th n).2 = upsertEntry th n t := by
        simp [generateThumbnail, hf, hok]
      rw [hstep]
      obtain ⟨i, hi⟩ := Option.isSome_iff_exists.mp hsrc
      have himem : i ∈ images := List.mem_of_find?_eq_some hi
      have hit : i.mtime ≤ t := hmt i himem
      unfold isFresh
      rw [hi, lookupEntry_upsert, if_pos rfl]
      simpa using hit
    · exact Or.inr (by simpa using hok)

lemma genList_stable_of_mem (ok : String → Bool) (t : Nat)
    (images : List FileEntry) (hmt : ∀ e ∈ images, e.mtime ≤ t) :
    ∀ (names : List String) (th : List FileEntry),
      (∀ k ∈ names, (lookupEntry images k).isSome) →
      ∀ n ∈ names, thumbStable ok images (genList ok t images names th) n := by
  intro names
  induction names with
  | nil => intro th _ n hn; cases hn
  | cons m ms ih =>
    intro th hsrc n hn
    have hrw : genList ok t images (m :: ms) th
        = genList ok t images ms (generateThumbnail ok t images th m).2 := rfl
    rw [hrw]
    rcases List.mem_cons.mp hn with rfl | hn'
    · exact genList_preserves_stable ok t images n ms _
        (stable_after_step ok t images th n hmt (hsrc n (List.mem_cons_self n ms)))
    · exact ih _ (fun k hk => hsrc k (List.mem_cons_of_mem m hk)) n hn'

/-- C9: a thumbnail whose mtime is at or above its source image's mtime
makes `generateThumbnail` return skipped without writing, and a full
`generateAllThumbnails` run over sources whose mtimes do not exceed the
run time is idempotent: an immediately repeated run (at any later or
other time, with unchanged sources) leaves every thumbnail file exactly
as the first run left it. -/
theorem generateThumbnail_fresh_skip_idempotent :
    (∀ (ok : String → Bool) (t : Nat) (images thumbs : List FileEntry)
        (n : String) (i o : FileEntry),
      lookupEntry images n = some i → lookupEntry thumbs n = some o →
      i.mtime ≤ o.mtime →
      generateThumbnail ok t images thumbs n = (ThumbResult.skipped, thumbs)) ∧
    (∀ (ok : String → Bool) (t t2 : Nat) (images thumbs : List FileEntry),
      (∀ e ∈ images, e.mtime ≤ t) →
      generateAllThumbnails ok t2 images (generateAllThumbnails ok t images thumbs)
        = generateAllThumbnails ok t images thumbs) := by
  constructor
  · intro ok t images thumbs n i o hi ho hmt
    have hf : isFresh images thumbs n = true := by
      unfold isFresh
      rw [hi, ho]
      simpa using hmt
    simp [generateThumbnail, hf]
  · intro ok t t2 images thumbs hmt
    unfold generateAllThumbnails
    apply genList_noop
    intro n hn
    have hsrc : ∀ k ∈ (images.filter (fun e => isImageFile e.name)).map
        (fun e => e.name), (lookupEntry images k).isSome := by
      intro k hk
      rcases List.mem_map.mp hk with ⟨e, hemem, hename⟩
      have he : e ∈ images := List.mem_of_mem_filter hemem
      apply List.find?_isSome.mpr
      exact ⟨e, he, by simp [hename]⟩
    exact genList_stable_of_mem ok t images hmt _ thumbs hsrc n hn

/-- Witness for C9: a fresh thumbnail is skipped unchanged, and a second
full run over a two-image directory reproduces the first run's thumbnail
directory exactly. -/
theorem generateThumbnail_fresh_skip_idempotent_witness :
    generateThumbnail (fun _ => true) 9 [⟨"a.jpg", 3⟩] [⟨"a.jpg", 4⟩] ("a.jpg")
        = (ThumbResult.skipped, [⟨"a.jpg", 4⟩]) ∧
    generateAllThumbnails (fun _ => true) 9 [⟨"a.jpg", 3⟩, ⟨"b.png", 7⟩]
        (generateAllThumbnails (fun _ => true) 8 [⟨"a.jpg", 3⟩, ⟨"b.png", 7⟩] [])
      = generateAllThumbnails (fun _ => true) 8 [⟨"a.jpg", 3⟩, ⟨"b.png", 7⟩] [] :=
  ⟨generateThumbnail_fresh_skip_idempotent.1 (fun _ => true) 9
      [⟨"a.jpg", 3⟩] [⟨"a.jpg", 4⟩] ("a.jpg") ⟨"a.jpg", 3⟩ ⟨"a.jpg", 4⟩
      (by decide) (by decide) (by decide),
   generateThumbnail_fresh_skip_idempotent.2 (fun _ => true) 8 9
      [⟨"a.jpg", 3⟩, ⟨"b.png", 7⟩] [] (by decide)⟩

end InfoScreen
